import Mathlib

/-!
Shallow embedding of the 6502 emulator core (src/lib/cpu/cpu.rs and
src/lib/cpu/opcodes.rs). Machine bytes and words are `Nat` with explicit
`% 256` / `% 65536` where the Rust `u8` / `u16` arithmetic wraps; the
backing memory array `[u8; NES_MAX_MEMORY]` is a `Nat → Nat` cell map
with the array's bound checked explicitly in `mem_read` / `mem_write`
(an out-of-bounds index, a fatal error in the source, is `none`).
-/

namespace Nes

/-- Addressing modes, from the `AddressingMode` enum of cpu.rs. The opcode
table of opcodes.rs additionally references an `Accumulator` variant on its
ASL rows, embedded here as its own constructor; cpu.rs's resolver has no
arm for it, so resolving it (like `NoneAddressing`) fails. -/
inductive AddressingMode where
  | Immediate
  | ZeroPage
  | ZeroPageX
  | ZeroPageY
  | Absolute
  | AbsoluteX
  | AbsoluteY
  | Indirect
  | IndirectX
  | IndirectY
  | Accumulator
  | NoneAddressing
  deriving DecidableEq, Repr

/-- Opcode descriptor, from `OpCode` in opcodes.rs. -/
structure OpCode where
  code : Nat
  instruction : String
  length : Nat
  cycles : Nat
  mode : AddressingMode
  deriving DecidableEq, Repr

/-- The static opcode table `CPU_OPCODES` of opcodes.rs, row for row. -/
def CPU_OPCODES : List OpCode := [
  ⟨0x00, "BRK", 1, 7, .NoneAddressing⟩,

  ⟨0x69, "ADC", 2, 2, .Immediate⟩,
  ⟨0x65, "ADC", 2, 3, .ZeroPage⟩,
  ⟨0x75, "ADC", 2, 4, .ZeroPageX⟩,
  ⟨0x6D, "ADC", 3, 4, .Absolute⟩,
  ⟨0x7D, "ADC", 3, 4, .AbsoluteX⟩,
  ⟨0x79, "ADC", 3, 4, .AbsoluteY⟩,
  ⟨0x61, "ADC", 2, 6, .IndirectX⟩,
  ⟨0x71, "ADC", 2, 5, .IndirectY⟩,

  ⟨0x29, "AND", 2, 2, .Immediate⟩,
  ⟨0x25, "AND", 2, 3, .ZeroPage⟩,
  ⟨0x35, "AND", 2, 4, .ZeroPageX⟩,
  ⟨0x2D, "AND", 3, 4, .Absolute⟩,
  ⟨0x3D, "AND", 3, 4, .AbsoluteX⟩,
  ⟨0x39, "AND", 3, 4, .AbsoluteY⟩,
  ⟨0x21, "AND", 2, 6, .IndirectX⟩,
  ⟨0x31, "AND", 2, 5, .IndirectY⟩,

  ⟨0x0A, "ASL", 1, 2, .Accumulator⟩,
  ⟨0x06, "ASL", 2, 5, .ZeroPage⟩,
  ⟨0x16, "ASL", 2, 6, .ZeroPageX⟩,
  ⟨0x0E, "ASL", 3, 6, .Absolute⟩,
  ⟨0x1E, "ASL", 3, 7, .AbsoluteX⟩,

  ⟨0xE8, "INX", 1, 7, .NoneAddressing⟩,

  ⟨0xA9, "LDA", 2, 2, .Immediate⟩,
  ⟨0xA5, "LDA", 2, 3, .ZeroPage⟩,
  ⟨0xB5, "LDA", 2, 4, .ZeroPageX⟩,
  ⟨0xAD, "LDA", 3, 4, .Absolute⟩,
  ⟨0xBD, "LDA", 3, 4, .AbsoluteX⟩,
  ⟨0xB9, "LDA", 3, 4, .AbsoluteY⟩,
  ⟨0xA1, "LDA", 2, 6, .IndirectX⟩,
  ⟨0xB1, "LDA", 2, 5, .IndirectY⟩,

  ⟨0xA2, "LDX", 2, 2, .Immediate⟩,
  ⟨0xA6, "LDX", 2, 3, .ZeroPage⟩,
  ⟨0xB6, "LDX", 2, 4, .ZeroPageY⟩,
  ⟨0xAE, "LDX", 3, 4, .Absolute⟩,
  ⟨0xBE, "LDX", 3, 4, .AbsoluteY⟩,

  ⟨0xA0, "LDY", 2, 2, .Immediate⟩,
  ⟨0xA4, "LDY", 2, 3, .ZeroPage⟩,
  ⟨0xB4, "LDY", 2, 4, .ZeroPageX⟩,
  ⟨0xAC, "LDY", 3, 4, .Absolute⟩,
  ⟨0xBC, "LDY", 3, 4, .AbsoluteY⟩,

  ⟨0x85, "STA", 2, 3, .ZeroPage⟩,
  ⟨0x95, "STA", 2, 4, .ZeroPageX⟩,
  ⟨0x8D, "STA", 3, 4, .Absolute⟩,
  ⟨0x9D, "STA", 3, 5, .AbsoluteX⟩,
  ⟨0x9D, "STA", 3, 5, .AbsoluteY⟩,
  ⟨0x81, "STA", 2, 6, .IndirectX⟩,
  ⟨0x91, "STA", 2, 6, .IndirectY⟩,

  ⟨0xAA, "TAX", 1, 2, .NoneAddressing⟩
]

/-- The byte-to-descriptor map `CPU_OPCODES_MAP` of opcodes.rs: every row of
`CPU_OPCODES` is inserted in order into a hash map, a later insert with the
same code byte replacing an earlier one. -/
def CPU_OPCODES_MAP (k : Nat) : Option OpCode :=
  CPU_OPCODES.foldl (fun m e => fun q => if q = e.code then some e else m q)
    (fun _ => none) k

/-- Array size of the CPU memory: `NES_MAX_MEMORY` in cpu.rs (0xFFFF, which
the source comments as 64 KiB). -/
def NES_MAX_MEMORY : Nat := 0xFFFF

/-- Program origin `NES_ROM_PROGRAM_START` in cpu.rs. -/
def NES_ROM_PROGRAM_START : Nat := 0x8000

/-- CPU state, from `struct CPU` in cpu.rs. `memory` maps an index of the
backing array to the byte cell stored there. -/
structure CPU where
  register_a : Nat
  register_x : Nat
  register_y : Nat
  status : Nat
  program_counter : Nat
  memory : Nat → Nat

/-- Constructor `CPU::new()`: all registers zero, memory zero-filled. -/
def CPU.new : CPU :=
  { register_a := 0, register_x := 0, register_y := 0, status := 0,
    program_counter := 0, memory := fun _ => 0 }

/-- Byte read `mem_read`: in bounds of the `[u8; NES_MAX_MEMORY]` array it
yields the stored `u8` cell, out of bounds the fatal index error is `none`. -/
def CPU.mem_read (c : CPU) (addr : Nat) : Option Nat :=
  if addr < NES_MAX_MEMORY then some (c.memory addr % 256) else none

/-- Little-endian word read `mem_read_u16`: lower byte at `pos`, upper byte
at `pos + 1`. -/
def CPU.mem_read_u16 (c : CPU) (pos : Nat) : Option Nat := do
  let lower ← c.mem_read pos
  let upper ← c.mem_read (pos + 1)
  pure (lower + 256 * upper)

/-- Byte write `mem_write`: in bounds it updates exactly the addressed cell,
out of bounds the fatal index error is `none`. -/
def CPU.mem_write (c : CPU) (addr data : Nat) : Option CPU :=
  if addr < NES_MAX_MEMORY then
    some { c with memory := fun a => if a = addr then data else c.memory a }
  else none

/-- Little-endian word write `mem_write_u16`: low byte of `data` to `pos`,
high byte to `pos + 1`. -/
def CPU.mem_write_u16 (c : CPU) (pos data : Nat) : Option CPU := do
  let c1 ← c.mem_write pos (data % 256)
  c1.mem_write (pos + 1) (data / 256 % 256)

/-- Addressing resolver `get_operand_address` of cpu.rs. Rust `u8`
wrapping adds are `% 256`, `u16` wrapping adds are `% 65536`; the
`NoneAddressing` arm is the source's fatal failure, and `Accumulator` has
no arm in the source resolver at all, so both are `none`. -/
def CPU.get_operand_address (c : CPU) (mode : AddressingMode) : Option Nat :=
  match mode with
  | .Immediate => some c.program_counter
  | .Absolute => c.mem_read_u16 c.program_counter
  | .AbsoluteX =>
      (c.mem_read_u16 c.program_counter).map fun pos =>
        (pos + c.register_x) % 65536
  | .AbsoluteY =>
      (c.mem_read_u16 c.program_counter).map fun pos =>
        (pos + c.register_y) % 65536
  | .ZeroPage => c.mem_read c.program_counter
  | .ZeroPageX =>
      (c.mem_read c.program_counter).map fun pos =>
        (pos + c.register_x) % 256
  | .ZeroPageY =>
      (c.mem_read c.program_counter).map fun pos =>
        (pos + c.register_y) % 256
  | .Indirect => do
      let pos ← c.mem_read_u16 c.program_counter
      c.mem_read_u16 pos
  | .IndirectX => do
      let pos ← c.mem_read c.program_counter
      c.mem_read_u16 ((pos + c.register_x) % 256)
  | .IndirectY => do
      let pos ← c.mem_read c.program_counter
      c.mem_read_u16 ((pos + c.register_y) % 256)
  | .Accumulator => none
  | .NoneAddressing => none

/-- Program load `load` of cpu.rs: copy the program bytes to
`NES_ROM_PROGRAM_START ..`, write the origin to the reset vector 0xFFFC as
a little-endian word, set the program counter to the origin. The copy is a
fatal slice-range error (`none`) when the program does not fit above the
origin inside the backing array. -/
def CPU.load (c : CPU) (program : List Nat) : Option CPU :=
  if NES_ROM_PROGRAM_START + program.length ≤ NES_MAX_MEMORY then
    let copied : Nat → Nat := fun a =>
      if NES_ROM_PROGRAM_START ≤ a ∧ a < NES_ROM_PROGRAM_START + program.length
      then program.getD (a - NES_ROM_PROGRAM_START) 0
      else c.memory a
    let loaded : CPU := { c with memory := copied }
    match loaded.mem_write_u16 0xFFFC NES_ROM_PROGRAM_START with
    | some c1 => some { c1 with program_counter := NES_ROM_PROGRAM_START }
    | none => none
  else none

/-- Register reset `reset` of cpu.rs: zeroes `register_a`, `register_x` and
`status` (and touches no other register), then reads the program counter
from the reset vector 0xFFFC. -/
def CPU.reset (c : CPU) : Option CPU :=
  (c.mem_read_u16 0xFFFC).map fun pc =>
    { c with register_a := 0, register_x := 0, status := 0,
             program_counter := pc }

/-- Flag update `set_cpu_status_flags` of cpu.rs: set or clear the zero
flag (bit 1) from `result == 0`, then set or clear the negative flag
(bit 7) from `result & 0x80`. -/
def CPU.set_cpu_status_flags (c : CPU) (result : Nat) : CPU :=
  let s1 := if result = 0 then c.status ||| 0b00000010
            else c.status &&& 0b11111101
  let s2 := if result &&& 0b10000000 ≠ 0 then s1 ||| 0b10000000
            else s1 &&& 0b01111111
  { c with status := s2 }

/-- INX `inx` of cpu.rs: increment X with an explicit 255-to-0 wrap, then
update the flags from the new X. -/
def CPU.inx (c : CPU) : CPU :=
  let x := if c.register_x = 255 then 0 else c.register_x + 1
  ({ c with register_x := x }).set_cpu_status_flags x

/-- LDA `lda` of cpu.rs: resolve the operand address, read the byte there
into the accumulator, update the flags from it. -/
def CPU.lda (c : CPU) (mode : AddressingMode) : Option CPU := do
  let addr ← c.get_operand_address mode
  let value ← c.mem_read addr
  pure (({ c with register_a := value }).set_cpu_status_flags value)

/-- LDX `ldx` of cpu.rs: like `lda` but targets X. -/
def CPU.ldx (c : CPU) (mode : AddressingMode) : Option CPU := do
  let addr ← c.get_operand_address mode
  let value ← c.mem_read addr
  pure (({ c with register_x := value }).set_cpu_status_flags value)

/-- STA `sta` of cpu.rs: resolve the operand address and write the
accumulator there; no flag update. -/
def CPU.sta (c : CPU) (mode : AddressingMode) : Option CPU := do
  let addr ← c.get_operand_address mode
  c.mem_write addr c.register_a

/-- TAX `tax` of cpu.rs: copy the accumulator into X, update the flags
from it. -/
def CPU.tax (c : CPU) : CPU :=
  ({ c with register_x := c.register_a }).set_cpu_status_flags c.register_a

/-- Result of one iteration of the `execute` loop of cpu.rs: BRK returns
from the loop (`halt`), a fatal error carries the state at the failure
(`err`), otherwise the loop continues (`next`). -/
inductive StepResult where
  | halt (c : CPU)
  | err (c : CPU) (msg : String)
  | next (c : CPU)

/-- Tail of a dispatched `execute` iteration: a successful operation is
followed by the program counter advancing by the descriptor length minus
the already-fetched opcode byte; a failed operation is the source's fatal
abort at the state after the fetch. -/
def finishStep (c1 : CPU) (info : OpCode) : Option CPU → StepResult
  | some c2 =>
      .next { c2 with program_counter := c2.program_counter + (info.length - 1) }
  | none => .err c1 "addressing failure"

/-- One iteration of the `execute` loop of cpu.rs: fetch the opcode byte at
the program counter, advance the program counter by one, look the byte up
in `CPU_OPCODES_MAP` (absence is the fatal unrecognized-opcode error), then
dispatch on the byte exactly as the source `match` does; the wildcard arm
is the source's fatal `todo` abort. -/
def CPU.executeStep (c : CPU) : StepResult :=
  match c.mem_read c.program_counter with
  | none => .err c "memory index out of range"
  | some opcode =>
    let c1 : CPU := { c with program_counter := c.program_counter + 1 }
    match CPU_OPCODES_MAP opcode with
    | none => .err c1 "Unrecognized opcode"
    | some info =>
      match opcode with
      | 0xE8 => finishStep c1 info (some c1.inx)
      | 0xA9 | 0xA5 | 0xB5 | 0xAD | 0xBD | 0xB9 | 0xA1 | 0xB1 =>
          finishStep c1 info (c1.lda info.mode)
      | 0xA2 | 0xA6 | 0xB6 | 0xAE | 0xBE =>
          finishStep c1 info (c1.ldx info.mode)
      | 0x85 | 0x95 | 0x8D | 0x9D | 0x99 | 0x81 | 0x91 =>
          finishStep c1 info (c1.sta info.mode)
      | 0xAA => finishStep c1 info (some c1.tax)
      | 0x00 => .halt c1
      | _ => .err c1 "not implemented"

/-- Outcome of running the `execute` loop with a step budget. -/
inductive ExecResult where
  | halted (c : CPU)
  | fatal (c : CPU) (msg : String)
  | fuelOut (c : CPU)

/-- The `execute` loop of cpu.rs, iterated under an explicit step budget. -/
def CPU.execute : Nat → CPU → ExecResult
  | 0, c => .fuelOut c
  | n + 1, c =>
    match c.executeStep with
    | .halt c1 => .halted c1
    | .err c1 m => .fatal c1 m
    | .next c1 => CPU.execute n c1

/-- Convenience composition `run` of cpu.rs: load, reset, execute. -/
def CPU.run (c : CPU) (program : List Nat) (fuel : Nat) : Option ExecResult := do
  let c1 ← c.load program
  let c2 ← c1.reset
  pure (c2.execute fuel)

end Nes

namespace Nes

/-! Concrete states used by individual claim theorems. -/

/-- CPU state with a nonzero Y register, fed to `reset`. -/
def c4State : CPU :=
  { CPU.new with
    register_y := 5 }

/-- Memory holding the three bytes 0x9D 0x01 0x20 (STA with a 0x2001
operand word) at the program origin. -/
def c2Memory : Nat → Nat := fun a =>
  if a = 0x8000 then 0x9D
  else if a = 0x8001 then 0x01
  else if a = 0x8002 then 0x20
  else 0

/-- CPU state about to execute opcode 0x9D with distinct X and Y. -/
def c2State : CPU :=
  { CPU.new with
    register_a := 7, register_x := 1, register_y := 2,
    program_counter := 0x8000, memory := c2Memory }

/-- Memory with the operand byte 0xFE at 0x8001 and 0x12 at 0x8002. -/
def c6Memory : Nat → Nat := fun a =>
  if a = 0x8001 then 0xFE
  else if a = 0x8002 then 0x12
  else 0

/-- CPU state whose program counter points at the 0xFE operand, with X = 3
and Y = 5. -/
def c6State : CPU :=
  { CPU.new with
    register_x := 3, register_y := 5,
    program_counter := 0x8001, memory := c6Memory }

/-- Memory holding the one-byte program 0xFF at the origin, with the reset
vector pointing at the origin. -/
def c7Memory : Nat → Nat := fun a =>
  if a = 0x8000 then 0xFF
  else if a = 0xFFFD then 0x80
  else 0

/-- CPU state about to fetch the uncatalogued byte 0xFF. -/
def c7State : CPU :=
  { CPU.new with
    program_counter := 0x8000, memory := c7Memory }

/-- Memory with the byte 0x55 poked at the zero-page address 0x10. -/
def c10Memory : Nat → Nat := fun a => if a = 0x10 then 0x55 else 0

/-- CPU state with 0x55 seeded at 0x10 before a load. -/
def c10State : CPU :=
  { CPU.new with
    memory := c10Memory }

/-- CPU state with a mixed status byte 0x45, fed to the flag update. -/
def c1State : CPU :=
  { CPU.new with
    status := 0x45 }

/-- C3: the opcode catalog violates key uniqueness: the byte 0x9D occurs on
two rows of CPU_OPCODES (the STA AbsoluteX and STA AbsoluteY rows), the
mapped code list is therefore not duplicate-free, and the map build lets the
later AbsoluteY registration overwrite the AbsoluteX one. -/
theorem c3_opcode_duplicate_bug :
    (CPU_OPCODES.map OpCode.code).count 0x9D = 2 ∧
    ¬ (CPU_OPCODES.map OpCode.code).Nodup ∧
    (CPU_OPCODES_MAP 0x9D).map OpCode.mode = some AddressingMode.AbsoluteY := by
  refine ⟨by decide, by decide, by decide⟩

/-- C2: executing opcode 0x9D (catalogued as STA AbsoluteX) with A=7, X=1,
Y=2 and operand word 0x2001 stores the accumulator at 0x2003 = word + Y,
leaving 0x2002 = word + X untouched, because the duplicate 0x9D row made
the map resolve 0x9D to AbsoluteY; the actual STA AbsoluteY byte 0x99,
which the execute dispatch lists, is absent from the catalog. -/
theorem c2_sta_absolute_x_bug :
    CPU_OPCODES_MAP 0x99 = none ∧
    (CPU_OPCODES_MAP 0x9D).map OpCode.mode = some AddressingMode.AbsoluteY ∧
    ∃ c1, c2State.executeStep = StepResult.next c1 ∧
      c1.memory 0x2003 = 7 ∧ c1.memory 0x2002 = 0 ∧
      c1.program_counter = 0x8003 := by
  exact ⟨rfl, rfl, ⟨_, rfl, rfl, rfl, rfl⟩⟩

/-- C4: reset() does not zero the Y register: resetting a CPU whose Y is 5
zeroes A, X and the status byte and loads the program counter from 0xFFFC,
but leaves Y = 5. -/
theorem c4_reset_leaves_y_bug :
    ∃ c1, c4State.reset = some c1 ∧ c1.register_y = 5 ∧
      c1.register_a = 0 ∧ c1.register_x = 0 ∧ c1.status = 0 ∧
      c1.program_counter = 0 := by
  exact ⟨_, rfl, rfl, rfl, rfl, rfl, rfl⟩

/-- C5: the backing array holds NES_MAX_MEMORY = 0xFFFF bytes, one short of
the 64 KiB address space, so the u16 address 0xFFFF is out of bounds: both
the byte read and the byte write at 0xFFFF take the fatal
index-out-of-bounds branch, while 0xFFFE is still in range. -/
theorem c5_memory_top_byte_bug :
    CPU.new.mem_read 0xFFFF = none ∧
    CPU.new.mem_write 0xFFFF 0xAB = none ∧
    (CPU.new.mem_read 0xFFFE).isSome = true := by
  exact ⟨rfl, rfl, rfl⟩

end Nes

namespace Nes

/-- C6: for every CPU state, indexed addressing resolves by wrapping
addition: ZeroPageX / ZeroPageY give (operand byte + index register) mod
256, AbsoluteX / AbsoluteY give (operand word + index register) mod 65536
— never saturating and never failing on overflow. -/
theorem c6_indexed_wrapping (c : CPU) (b w : Nat)
    (hb : c.mem_read c.program_counter = some b)
    (hw : c.mem_read_u16 c.program_counter = some w) :
    c.get_operand_address AddressingMode.ZeroPageX =
      some ((b + c.register_x) % 256) ∧
    c.get_operand_address AddressingMode.ZeroPageY =
      some ((b + c.register_y) % 256) ∧
    c.get_operand_address AddressingMode.AbsoluteX =
      some ((w + c.register_x) % 65536) ∧
    c.get_operand_address AddressingMode.AbsoluteY =
      some ((w + c.register_y) % 65536) := by
  simp [CPU.get_operand_address, hb, hw]

/-- Witness for C6 at a concrete state: operand byte 0xFE, operand word
0x12FE, X = 3, Y = 5. -/
theorem c6_indexed_wrapping_witness :
    c6State.mem_read c6State.program_counter = some 0xFE ∧
    c6State.mem_read_u16 c6State.program_counter = some 0x12FE ∧
    (c6State.get_operand_address AddressingMode.ZeroPageX =
      some ((0xFE + c6State.register_x) % 256) ∧
    c6State.get_operand_address AddressingMode.ZeroPageY =
      some ((0xFE + c6State.register_y) % 256) ∧
    c6State.get_operand_address AddressingMode.AbsoluteX =
      some ((0x12FE + c6State.register_x) % 65536) ∧
    c6State.get_operand_address AddressingMode.AbsoluteY =
      some ((0x12FE + c6State.register_y) % 65536)) :=
  ⟨rfl, rfl, c6_indexed_wrapping c6State 0xFE 0x12FE rfl rfl⟩

/-- C7: when the fetched opcode byte is absent from the catalog, the
execute loop fails with the fatal unrecognized-opcode error (it is not a
no-op and does not continue), and the state at the failure agrees with the
pre-fetch state on every register, the status byte and all of memory, the
program counter alone having advanced past the fetched byte. -/
theorem c7_unrecognized_opcode (c : CPU) (b : Nat)
    (hb : c.mem_read c.program_counter = some b)
    (hmap : CPU_OPCODES_MAP b = none) :
    ∃ c1, c.executeStep = StepResult.err c1 "Unrecognized opcode" ∧
      c1.register_a = c.register_a ∧ c1.register_x = c.register_x ∧
      c1.register_y = c.register_y ∧ c1.status = c.status ∧
      c1.memory = c.memory ∧
      c1.program_counter = c.program_counter + 1 := by
  simp only [CPU.executeStep, hb, hmap]
  exact ⟨_, rfl, rfl, rfl, rfl, rfl, rfl, rfl⟩

/-- Witness for C7 at the loaded one-byte program 0xFF. -/
theorem c7_unrecognized_opcode_witness :
    c7State.mem_read c7State.program_counter = some 0xFF ∧
    CPU_OPCODES_MAP 0xFF = none ∧
    (∃ c1, c7State.executeStep = StepResult.err c1 "Unrecognized opcode" ∧
      c1.register_a = c7State.register_a ∧ c1.register_x = c7State.register_x ∧
      c1.register_y = c7State.register_y ∧ c1.status = c7State.status ∧
      c1.memory = c7State.memory ∧
      c1.program_counter = c7State.program_counter + 1) :=
  ⟨rfl, rfl, c7_unrecognized_opcode c7State 0xFF rfl rfl⟩

/-- C9: word accesses are little-endian inverses: wherever a two-byte
access is in range, reading a word right after writing the 16-bit value v
there returns v, and a word read always combines the two byte reads as
low + 256 * high. -/
theorem c9_word_roundtrip (c : CPU) (addr v : Nat)
    (h : addr + 1 < NES_MAX_MEMORY) (hv : v < 65536) :
    (∃ c1, c.mem_write_u16 addr v = some c1 ∧
      c1.mem_read_u16 addr = some v) ∧
    (∃ lo hi, c.mem_read addr = some lo ∧ c.mem_read (addr + 1) = some hi ∧
      c.mem_read_u16 addr = some (lo + 256 * hi)) := by
  have h0 : addr < NES_MAX_MEMORY := by omega
  have hne : addr ≠ addr + 1 := by omega
  constructor
  · refine ⟨{ c with memory := fun a => if a = addr + 1 then v / 256 % 256 else if a = addr then v % 256 else c.memory a }, ?_, ?_⟩
    · simp [CPU.mem_write_u16, CPU.mem_write, h0, h]
    · simp [CPU.mem_read_u16, CPU.mem_read, h0, h, hne]
      omega
  · refine ⟨c.memory addr % 256, c.memory (addr + 1) % 256, ?_, ?_, ?_⟩
    · simp [CPU.mem_read, h0]
    · simp [CPU.mem_read, h]
    · simp [CPU.mem_read_u16, CPU.mem_read, h0, h]

/-- Witness for C9 at address 0x10 and word value 0xBEEF on a fresh CPU. -/
theorem c9_word_roundtrip_witness :
    (0x10 + 1 < NES_MAX_MEMORY ∧ (0xBEEF : Nat) < 65536) ∧
    ((∃ c1, CPU.new.mem_write_u16 0x10 0xBEEF = some c1 ∧
      c1.mem_read_u16 0x10 = some 0xBEEF) ∧
    (∃ lo hi, CPU.new.mem_read 0x10 = some lo ∧
      CPU.new.mem_read (0x10 + 1) = some hi ∧
      CPU.new.mem_read_u16 0x10 = some (lo + 256 * hi))) :=
  ⟨⟨by decide, by decide⟩,
    c9_word_roundtrip CPU.new 0x10 0xBEEF (by decide) (by decide)⟩

end Nes

namespace Nes

/-- C10: load touches nothing outside the program image and the reset
vector: every memory byte outside [0x8000, 0x8000 + program length) other
than the two vector bytes 0xFFFC and 0xFFFD keeps its pre-load value. -/
theorem c10_load_frame (c : CPU) (p : List Nat) (c1 : CPU)
    (h : c.load p = some c1) (a : Nat)
    (ha : ¬ (NES_ROM_PROGRAM_START ≤ a ∧ a < NES_ROM_PROGRAM_START + p.length))
    (h1 : a ≠ 0xFFFC) (h2 : a ≠ 0xFFFD) :
    c1.memory a = c.memory a := by
  unfold CPU.load at h
  split at h
  · simp [CPU.mem_write_u16, CPU.mem_write, NES_MAX_MEMORY,
      NES_ROM_PROGRAM_START] at h
    subst h
    simp only [NES_ROM_PROGRAM_START] at ha
    simp [h1, h2]
    intro hl hr
    exact absurd ⟨hl, hr⟩ ha
  · simp at h

/-- Witness for C10: loading the three-byte program 0xA5 0x10 0x00 leaves
the poked byte at 0x10 intact. -/
theorem c10_load_frame_witness :
    ∃ c1, c10State.load [0xA5, 0x10, 0x00] = some c1 ∧
      c1.memory 0x10 = c10State.memory 0x10 :=
  ⟨_, rfl, c10_load_frame c10State [0xA5, 0x10, 0x00] _ rfl 0x10
    (by decide) (by decide) (by decide)⟩

/-- Load succeeds exactly when the program fits above the origin inside
the backing array. -/
theorem load_isSome_iff (c : CPU) (p : List Nat) :
    (c.load p).isSome = true ↔
      NES_ROM_PROGRAM_START + p.length ≤ NES_MAX_MEMORY := by
  unfold CPU.load
  split
  · next hfit =>
      simp only [CPU.mem_write_u16, CPU.mem_write]
      norm_num [NES_MAX_MEMORY]
      exact hfit
  · next hfit => simp [hfit]

/-- C8: load copies the program to the origin 0x8000, writes the origin
into the reset vector as a little-endian word and sets the program counter
to the origin, and a 0x7FFF-byte program still fits; but because the
backing array is one byte short of 64 KiB, a program of 64 KiB − 0x8000 =
0x8000 bytes does not load: the copy takes the fatal range-error branch. -/
theorem c8_load_capacity_bug :
    (CPU.new.load (List.replicate 0x7FFF 0xAB)).isSome = true ∧
    CPU.new.load (List.replicate 0x8000 0xAB) = none ∧
    (∃ c1, CPU.new.load [0xA9, 0x05, 0x00] = some c1 ∧
      c1.program_counter = 0x8000 ∧ c1.memory 0x8000 = 0xA9 ∧
      c1.memory 0x8001 = 0x05 ∧ c1.memory 0x8002 = 0x00 ∧
      c1.memory 0xFFFC = 0x00 ∧ c1.memory 0xFFFD = 0x80) := by
  refine ⟨?_, ?_, ?_⟩
  · rw [load_isSome_iff, List.length_replicate]
    decide
  · rw [← Option.not_isSome_iff_eq_none, load_isSome_iff, List.length_replicate]
    decide
  · exact ⟨_, rfl, rfl, rfl, rfl, rfl, rfl, rfl⟩

end Nes

namespace Nes

/-- A byte-sized value has no bits at positions 8 and above. -/
theorem testBit_of_lt_256 {s : Nat} (hs : s < 256) {i : Nat} (h8 : 8 ≤ i) :
    s.testBit i = false := by
  apply Nat.testBit_eq_false_of_lt
  calc s < 256 := hs
    _ = 2 ^ 8 := by norm_num
    _ ≤ 2 ^ i := Nat.pow_le_pow_right (by norm_num) h8

/-- Bits of the four flag masks at every position below 8 other than the
zero-flag and negative-flag positions. -/
theorem const_bits_small : ∀ i, i < 8 → i ≠ 1 → i ≠ 7 →
    (Nat.testBit 2 i = false ∧ Nat.testBit 253 i = true ∧
     Nat.testBit 128 i = false ∧ Nat.testBit 127 i = true) := by decide

/-- Bits of the four flag masks at the zero-flag position 1 and the
negative-flag position 7. -/
theorem const_bits_key :
    Nat.testBit 2 1 = true ∧ Nat.testBit 253 1 = false ∧
    Nat.testBit 128 1 = false ∧ Nat.testBit 127 1 = true ∧
    Nat.testBit 128 7 = true ∧ Nat.testBit 127 7 = false ∧
    Nat.testBit 2 7 = false ∧ Nat.testBit 253 7 = true := by decide

/-- C1: after the flag update for an 8-bit result r, the zero flag
(status bit 1) is set exactly when r = 0, the negative flag (status bit 7)
is set exactly when r & 0x80 is nonzero, and every other status bit keeps
its previous value. -/
theorem c1_flag_consistency (c : CPU) (r : Nat)
    (hs : c.status < 256) (hr : r < 256) :
    ((c.set_cpu_status_flags r).status.testBit 1 = true ↔ r = 0) ∧
    ((c.set_cpu_status_flags r).status.testBit 7 = true ↔ r &&& 0x80 ≠ 0) ∧
    ∀ i, i ≠ 1 → i ≠ 7 →
      (c.set_cpu_status_flags r).status.testBit i = c.status.testBit i := by
  obtain ⟨t21, t2531, t1281, t1271, t1287, t1277, t27, t2537⟩ := const_bits_key
  simp only [CPU.set_cpu_status_flags]
  by_cases h0 : r = 0
  · subst h0
    refine ⟨?_, ?_, ?_⟩
    · simp [Nat.testBit_land, Nat.testBit_lor, Nat.zero_and, t21, t1271]
    · simp [Nat.testBit_land, Nat.testBit_lor, Nat.zero_and, t1277]
    · intro i h1 h7
      rcases Nat.lt_or_ge i 8 with h8 | h8
      · obtain ⟨u2, u253, u128, u127⟩ := const_bits_small i h8 h1 h7
        simp [Nat.testBit_land, Nat.testBit_lor, Nat.zero_and, u2, u127]
      · have hsb := testBit_of_lt_256 hs h8
        have v2 : Nat.testBit 2 i = false := testBit_of_lt_256 (by norm_num) h8
        have v127 : Nat.testBit 127 i = false :=
          testBit_of_lt_256 (by norm_num) h8
        simp [Nat.testBit_land, Nat.testBit_lor, Nat.zero_and, hsb, v2, v127]
  · simp only [if_neg h0]
    by_cases h7n : r &&& 128 ≠ 0
    · simp only [if_pos h7n]
      refine ⟨?_, ?_, ?_⟩
      · simp [Nat.testBit_land, Nat.testBit_lor, t2531, t1281, h0]
      · simp [Nat.testBit_lor, t1287, h7n]
      · intro i h1 h7
        rcases Nat.lt_or_ge i 8 with h8 | h8
        · obtain ⟨u2, u253, u128, u127⟩ := const_bits_small i h8 h1 h7
          simp [Nat.testBit_land, Nat.testBit_lor, u253, u128]
        · have hsb := testBit_of_lt_256 hs h8
          have v253 : Nat.testBit 253 i = false :=
            testBit_of_lt_256 (by norm_num) h8
          have v128 : Nat.testBit 128 i = false :=
            testBit_of_lt_256 (by norm_num) h8
          simp [Nat.testBit_land, Nat.testBit_lor, hsb, v253, v128]
    · simp only [if_neg h7n]
      refine ⟨?_, ?_, ?_⟩
      · simp [Nat.testBit_land, Nat.testBit_lor, t2531, t1271, h0]
      · simp [Nat.testBit_land, t1277, h7n]
      · intro i h1 h7
        rcases Nat.lt_or_ge i 8 with h8 | h8
        · obtain ⟨u2, u253, u128, u127⟩ := const_bits_small i h8 h1 h7
          simp [Nat.testBit_land, Nat.testBit_lor, u253, u127]
        · have hsb := testBit_of_lt_256 hs h8
          have v253 : Nat.testBit 253 i = false :=
            testBit_of_lt_256 (by norm_num) h8
          have v127 : Nat.testBit 127 i = false :=
            testBit_of_lt_256 (by norm_num) h8
          simp [Nat.testBit_land, hsb, v253, v127]

/-- Witness for C1 at status 0x45 and the negative result 0x85. -/
theorem c1_flag_consistency_witness :
    c1State.status < 256 ∧ (0x85 : Nat) < 256 ∧
    ((c1State.set_cpu_status_flags 0x85).status.testBit 1 = true ↔
      (0x85 : Nat) = 0) ∧
    ((c1State.set_cpu_status_flags 0x85).status.testBit 7 = true ↔
      (0x85 : Nat) &&& 0x80 ≠ 0) ∧
    (c1State.set_cpu_status_flags 0x85).status.testBit 0 =
      c1State.status.testBit 0 := by
  have h := c1_flag_consistency c1State 0x85 (by decide) (by decide)
  exact ⟨by decide, by decide, h.1, h.2.1, h.2.2 0 (by decide) (by decide)⟩

end Nes
